import Mathlib

/-!
# Verification of the Job-Hunter discovery-and-filtering pipeline

Shallow embedding of the repository's core (source files `src/scout/jobScout.ts`
— shipped unnamed —, `src/config/userConfig.ts`, `src/analyzer/claude.ts`,
`src/server.ts`, `src/log/appLog.ts`, `src/types.ts`) and proofs of the frozen
claims about it.

Modelling conventions:
* JavaScript numbers that hold whole-millisecond epoch times or whole-day
  counts are modelled as `Int`; `Math.floor(a / b)` on such integers with
  `b > 0` is `Int.fdiv a b`.
* `NaN` contamination matters for one claim, so a dedicated type `JsNum`
  (an integer or NaN) carries the result of `new Date(s).getTime()`.
* Network I/O (one `axios.get` per adapter invocation) is modelled by passing
  the invocation's outcome (`Except JsError …`) as an argument; a thrown
  JavaScript error is `Except.error`.
* Case folding (`toLowerCase`, the regex `i` flag) is modelled on ASCII via
  `Char.toLower`; the claims only exercise ASCII data.
-/

/-- A JavaScript runtime error, as far as the code under verification
distinguishes errors: an Anthropic `APIError` carrying an optional HTTP
status, or any other thrown value. -/
inductive JsError where
  | apiError (status : Option Nat)
  | other (message : String)
deriving DecidableEq, Repr

/-- A JavaScript number that is either an integer value or `NaN`
(floating-point values outside these never arise in the modelled code paths). -/
inductive JsNum where
  | num (n : Int)
  | nan
deriving DecidableEq, Repr

/-- JS subtraction on `JsNum`: `NaN` is absorbing. -/
def JsNum.sub : JsNum → JsNum → JsNum
  | .num a, .num b => .num (a - b)
  | _, _ => .nan

/-- `Math.floor(x / d)` for a positive integer literal `d`: on an integer
this is flooring division, and `NaN / d` is `NaN`, of which `Math.floor` is
again `NaN`. -/
def jsFloorDivBy (x : JsNum) (d : Int) : JsNum :=
  match x with
  | .num n => .num (Int.fdiv n d)
  | .nan => .nan

/-- `Math.max(0, x)`: `Math.max` returns `NaN` if any argument is `NaN`. -/
def jsMaxZero : JsNum → JsNum
  | .num n => .num (max 0 n)
  | .nan => .nan

/-- `needle.isPrefixOf haystack` on character lists, used to model JS string
searching. -/
def startsWithChars : List Char → List Char → Bool
  | [], _ => true
  | _ :: _, [] => false
  | n :: ns, c :: cs => n = c && startsWithChars ns cs

/-- Scan for an occurrence of `needle` anywhere in the character list. -/
def includesAux (needle : List Char) : List Char → Bool
  | [] => startsWithChars needle []
  | c :: rest => startsWithChars needle (c :: rest) || includesAux needle rest

/-- JS `hay.includes(needle)`. -/
def jsIncludes (hay needle : String) : Bool :=
  includesAux needle.data hay.data

/-- Case-insensitive prefix test: the pattern is given lowercase, each input
character is lowercased (ASCII) before comparison — models the regex `i` flag. -/
def ciStartsWith : List Char → List Char → Bool
  | [], _ => true
  | _ :: _, [] => false
  | p :: ps, c :: cs => p = c.toLower && ciStartsWith ps cs

/-- Case-insensitive occurrence scan. -/
def ciIncludesAux (pat : List Char) : List Char → Bool
  | [] => ciStartsWith pat []
  | c :: rest => ciStartsWith pat (c :: rest) || ciIncludesAux pat rest

/-- JS `s.toLowerCase()`, modelled on ASCII. -/
def jsToLower (s : String) : String :=
  String.mk (s.data.map Char.toLower)

/-- JS regex `\d`: an ASCII digit. -/
def jsDigit (c : Char) : Bool := c.isDigit

/-- JS regex `\s` (the ASCII part; the claims never exercise Unicode spaces). -/
def jsSpace (c : Char) : Bool :=
  c = ' ' || c = '\t' || c = '\n' || c = '\r' || c = '\x0b' || c = '\x0c'

/-- JS `s.trim()`: strip leading and trailing whitespace (ASCII part). -/
def jsTrim (s : String) : String :=
  String.mk (((s.data.dropWhile jsSpace).reverse.dropWhile jsSpace).reverse)

/-- JS regex `\w`: ASCII alphanumeric or underscore. -/
def jsWordChar (c : Char) : Bool := c.isAlphanum || c = '_'

/-- The tail of the salary regex's first branch: after `\d[\d\s]*`, one of
`k\b|PLN|pln|zł|EUR|eur|USD|\$|€` (case-insensitively), matched at the head of
the remaining characters. -/
def currencyAfterNum (l : List Char) : Bool :=
  ciStartsWith [ 'p', 'l', 'n' ] l
  || ciStartsWith [ 'z', 'ł' ] l
  || ciStartsWith [ 'e', 'u', 'r' ] l
  || ciStartsWith [ 'u', 's', 'd' ] l
  || ciStartsWith [ '$' ] l
  || ciStartsWith [ '€' ] l
  || (match l with
      | k :: [] => k = 'k' || k = 'K'
      | k :: c :: _ => (k = 'k' || k = 'K') && !jsWordChar c
      | [] => false)

/-- After the leading digit of `\d[\d\s]*(?:…)`: consume zero or more
digits/spaces, then the currency token. -/
def numCurrencyScan : List Char → Bool
  | [] => currencyAfterNum []
  | c :: rest =>
    currencyAfterNum (c :: rest) || ((jsDigit c || jsSpace c) && numCurrencyScan rest)

/-- `∃` a match of the branch `\d[\d\s]*(?:k\b|PLN|…|€)` anywhere in the text. -/
def salaryNumBranch : List Char → Bool
  | [] => false
  | c :: rest => (jsDigit c && numCurrencyScan rest) || salaryNumBranch rest

/-- `src/scout/jobScout.ts` `hasSalary`: tests the text against
`/\d[\d\s]*(?:k\b|PLN|pln|zł|EUR|eur|USD|\$|€)|b2b|uop|salary|wynagrodzenie/i`. -/
def hasSalary (text : String) : Bool :=
  salaryNumBranch text.data
  || ciIncludesAux [ 'b', '2', 'b' ] text.data
  || ciIncludesAux [ 'u', 'o', 'p' ] text.data
  || ciIncludesAux [ 's', 'a', 'l', 'a', 'r', 'y' ] text.data
  || ciIncludesAux [ 'w', 'y', 'n', 'a', 'g', 'r', 'o', 'd', 'z', 'e', 'n', 'i', 'e' ] text.data

/-- The fixed stock-phrase list of the ghost-preflag detector. -/
def ghostPhrases : List String :=
  [ "talent pool", "pula talent", "various clients", "multiple position",
    "ongoing recruitment", "ciągły nabór", "always looking", "pipeline",
    "future opportunit", "speculative" ]

/-- `src/scout/jobScout.ts` `isGhostPreflag`: lowercases `title + ' ' + snippet`
and checks whether any stock phrase occurs as a substring. -/
def isGhostPreflag (title snippet : String) : Bool :=
  let t := jsToLower (title ++ " " ++ snippet)
  ghostPhrases.any (fun f => jsIncludes t f)

/-- JS regex `.` without the `s` flag: any character that is not a line
terminator. -/
def lineChar (c : Char) : Bool := c ≠ '\n' && c ≠ '\r'

/-- The capture constraint `(.{m,n})$`: the whole remaining text, with length
between `m` and `n` and free of line terminators. -/
def captureTail (m n : Nat) (tail : List Char) : Bool :=
  m ≤ tail.length && tail.length ≤ n && tail.all lineChar

/-- Leftmost match of `/ @ (.{2,60})$/`: scan positions left to right; at a
position starting with `" @ "` the capture is everything after it, accepted
when it satisfies the length/line constraints. -/
def matchAtSuffix : List Char → Option (List Char)
  | ' ' :: '@' :: ' ' :: tail =>
    if captureTail 2 60 tail then some tail else matchAtSuffix ('@' :: ' ' :: tail)
  | _ :: rest => matchAtSuffix rest
  | [] => none

/-- Leftmost match of `/ at (.{2,40})$/i` (the literal `" at "` matched
case-insensitively). -/
def matchAtWord : List Char → Option (List Char)
  | c :: a :: t :: sp :: tail =>
    if c = ' ' && (a = 'a' || a = 'A') && (t = 't' || t = 'T') && sp = ' '
        && captureTail 2 40 tail
    then some tail
    else matchAtWord (a :: t :: sp :: tail)
  | _ :: rest => matchAtWord rest
  | [] => none

/-- Leftmost match of `/\|(.{2,40})$/`. -/
def matchPipe : List Char → Option (List Char)
  | '|' :: tail =>
    if captureTail 2 40 tail then some tail else matchPipe tail
  | _ :: rest => matchPipe rest
  | [] => none

/-- `src/scout/jobScout.ts` `extractCompany`: try the three title conventions
in order, return the first capture trimmed of surrounding whitespace,
`none` when no convention matches. -/
def extractCompany (title : String) : Option String :=
  match matchAtSuffix title.data with
  | some cap => some (jsTrim (String.mk cap))
  | none =>
    match matchAtWord title.data with
    | some cap => some (jsTrim (String.mk cap))
    | none =>
      match matchPipe title.data with
      | some cap => some (jsTrim (String.mk cap))
      | none => none

example : extractCompany "QA Engineer @ Acme Corp" = some "Acme Corp" := by decide
example : extractCompany "QA Engineer at Acme" = some "Acme" := by decide
example : extractCompany "QA Engineer | Acme" = some "Acme" := by decide
example : extractCompany "QA Engineer" = none := by decide
example : hasSalary "16000-25000 PLN B2B" = true := by decide
example : hasSalary "competitive package" = false := by decide
example : isGhostPreflag "QA" "ongoing recruitment for future opportunities" = true := by decide

/-! ## Data model -/

/-- `src/scout/jobScout.ts` `interface RawResult` (the spec's RawListing):
`age_days?: number | null` — `undefined` and `null` both collapse to `none`,
while a `NaN` produced upstream is `some .nan`. -/
structure RawResult where
  url : String
  title : String
  snippet : String
  site : String
  age_days : Option JsNum := none
deriving DecidableEq, Repr

/-- `src/types.ts` `ApplicationEntry`, restricted to the two fields the
Aggregator consults (`url` for cross-referencing, `date` for recency). -/
structure ApplicationEntry where
  url : String
  date : String
deriving DecidableEq, Repr

/-- `src/types.ts` `DiscoveryResult`. -/
structure DiscoveryResult where
  url : String
  title : String
  company : Option String
  site : String
  snippet : String
  age_days : Option JsNum
  has_salary : Bool
  ghost_preflag : Bool
  already_seen : Bool
  seen_days_ago : Option JsNum
deriving DecidableEq, Repr

/-! ## Feed adapter (NoFluffJobs RSS) -/

/-- `rssDateToAgeDays`: `Math.max(0, Math.floor((Date.now() - new
Date(dateStr).getTime()) / 86_400_000))`. In JavaScript `new Date(dateStr)`
never throws — an unparseable string yields an Invalid Date whose `getTime()`
is `NaN` — so the `catch { return null }` branch is unreachable and the
function's value on an unparseable date string is `NaN`, not `null`.
`parseDate` is the `new Date(·).getTime()` oracle (`.nan` for an unparseable
string) and `now` is `Date.now()`. -/
def rssDateToAgeDays (parseDate : String → JsNum) (now : Int) (dateStr : String) : JsNum :=
  jsMaxZero (jsFloorDivBy ((JsNum.num now).sub (parseDate dateStr)) 86400000)

/-- JS `rawDesc.replace(/<[^>]+>/g, ' ')` as a left-to-right state machine:
`buf = none` is plain-text mode; `buf = some b` means a `'<'` was seen and
`b` holds (reversed) the pending `'<'` plus the non-`'>'` run after it. A
`'>'` closing a nonempty run completes a match, replaced by one space; a
`'>'` right after the `'<'` cannot match (`[^>]+` needs one character), and a
pending run at end of input matches nothing — both are emitted verbatim.
This is exactly the regex's leftmost, non-overlapping global replacement,
since `[^>]+` cannot cross a `'>'` and neither `'>'` nor a `'<'` lacking a
later `'>'` can start a match. -/
def stripTagsAux : Option (List Char) → List Char → List Char
  | none, [] => []
  | none, c :: rest =>
    if c = '<' then stripTagsAux (some ['<']) rest else c :: stripTagsAux none rest
  | some buf, [] => buf.reverse
  | some buf, c :: rest =>
    if c = '>' then
      if 2 ≤ buf.length then ' ' :: stripTagsAux none rest
      else buf.reverse ++ '>' :: stripTagsAux none rest
    else stripTagsAux (some (c :: buf)) rest

/-- JS `rawDesc.replace(/<[^>]+>/g, ' ')`. -/
def stripTags (l : List Char) : List Char := stripTagsAux none l

/-- JS `.replace(/\s+/g, ' ')` as a state machine: `inWs` records whether the
previous character belonged to a whitespace run (so each maximal run emits
exactly one space). -/
def collapseWsAux (inWs : Bool) : List Char → List Char
  | [] => []
  | c :: rest =>
    if jsSpace c then
      if inWs then collapseWsAux true rest else ' ' :: collapseWsAux true rest
    else c :: collapseWsAux false rest

/-- JS `.replace(/\s+/g, ' ')`: each maximal whitespace run becomes one space. -/
def collapseWs (l : List Char) : List Char := collapseWsAux false l

/-- The snippet pipeline of the feed adapter:
`rawDesc.replace(/<[^>]+>/g, ' ').replace(/\s+/g, ' ').trim().slice(0, 200)`. -/
def processDescription (rawDesc : String) : String :=
  String.mk ((jsTrim (String.mk (collapseWs (stripTags rawDesc.data)))).data.take 200)

/-- One parsed `<item>` of the RSS document, carrying the text of the child
elements the adapter reads. -/
structure FeedItem where
  titleText : String
  linkText : String
  guidText : String
  descriptionText : String
  pubDateText : String
  dcDateText : String
deriving DecidableEq, Repr

/-- The per-item body of the `$('item').each` loop in `fetchNoFluffJobsRSS`:
`none` when the item is skipped (`!link || !title` — JS `||` falls back from
an empty `<link>` to `<guid>`, and from an empty `<pubDate>` to `<dc:date>`),
otherwise the pushed `RawResult`. The keyword filter lowercases both sides
and keeps the item when any keyword occurs in `title + ' ' + snippet`. -/
def feedItemResult (parseDate : String → JsNum) (now : Int) (keywords : List String)
    (it : FeedItem) : Option RawResult :=
  let title := it.titleText
  let link := if it.linkText = "" then it.guidText else it.linkText
  if link = "" || title = "" then none
  else
    let snippet := processDescription it.descriptionText
    let pubDate := if it.pubDateText = "" then it.dcDateText else it.pubDateText
    let kw := keywords.map jsToLower
    let searchText := jsToLower (title ++ " " ++ snippet)
    if kw.any (fun k => jsIncludes searchText k) then
      some { url := link, title := title, snippet := snippet, site := "nofluffjobs.com",
             age_days := some (rssDateToAgeDays parseDate now pubDate) }
    else none

/-- `fetchNoFluffJobsRSS`, network round trip factored out: the parsed feed
items are passed in, the adapter keeps the matching ones and caps the output
at 30 (`results.slice(0, 30)`). -/
def fetchNoFluffJobsRSS (parseDate : String → JsNum) (now : Int) (keywords : List String)
    (items : List FeedItem) : List RawResult :=
  (items.filterMap (feedItemResult parseDate now keywords)).take 30

/-! ## Meta-search fallback adapter (SearXNG) -/

/-- The fixed ordered list of public SearXNG instances. -/
def SEARXNG_INSTANCES : List String :=
  [ "https://searx.be", "https://searxng.site", "https://darmarit.org/searx" ]

/-- One entry of a SearXNG JSON response's `results` array; the adapter reads
`url`, `title` and `content`, each possibly missing (`?? ''`). -/
structure SearxItem where
  url : Option String := none
  title : Option String := none
  content : Option String := none
deriving DecidableEq, Repr

/-- The per-result mapping inside `searchViaSearXNG`: missing fields default
to the empty string, the configured `site` is recorded, and no `age_days`
field is set. -/
def searxToRaw (site : String) (res : SearxItem) : RawResult :=
  { url := res.url.getD "", title := res.title.getD "", snippet := res.content.getD "",
    site := site, age_days := none }

/-- `searchViaSearXNG`, network factored out: `instanceOutcomes` holds, per
instance of `SEARXNG_INSTANCES` in order, either the parsed `results` array
(`(r.data)?.results ?? []` — a malformed body yields `[]`) or the thrown
error (timeout, non-2xx). A thrown error or an empty `results` array moves on
to the next instance; a nonempty one is truncated to 10, mapped, and filtered
to entries with a nonempty URL. Exhaustion yields `[]`. -/
def searchViaSearXNG (site : String) : List (Except JsError (List SearxItem)) → List RawResult
  | [] => []
  | Except.error _ :: rest => searchViaSearXNG site rest
  | Except.ok results :: rest =>
    if results.length > 0 then
      ((results.take 10).map (searxToRaw site)).filter (fun r => r.url ≠ "")
    else searchViaSearXNG site rest

/-! ## Aggregator (`discoverJobs`) -/

/-- The per-site accumulation loop of `discoverJobs`: each configured site
contributes the outcome of its adapter invocation (`fetchNoFluffJobsRSS`,
`fetchJustJoinIt` or `searchViaSearXNG`, by the normalized host); a thrown
error is caught, logged as a warning, and contributes nothing. -/
def gatherRaw : List (Except JsError (List RawResult)) → List RawResult
  | [] => []
  | Except.ok rs :: rest => rs ++ gatherRaw rest
  | Except.error _ :: rest => gatherRaw rest

/-- The `raw.filter` deduplication of `discoverJobs` with its `seenRaw` set:
a listing is dropped when its URL is empty (`!r.url`) or already seen,
otherwise kept and its URL added to the set. -/
def dedupByUrl : List RawResult → List String → List RawResult
  | [], _ => []
  | r :: rest, seen =>
    if r.url = "" || seen.contains r.url then dedupByUrl rest seen
    else r :: dedupByUrl rest (r.url :: seen)

/-- The `unique.map` body of `discoverJobs`: cross-reference the persisted
log (`seenUrls` is the set of logged URLs; `logEntry` is `log.find(...)` only
when the URL is in that set) and attach the heuristic-classifier annotations.
`seen_days_ago` is `Math.floor((Date.now() - new Date(logEntry.date)
.getTime()) / 86_400_000)`; `parseDate` is the `new Date(·).getTime()`
oracle. -/
def annotate (parseDate : String → JsNum) (now : Int) (log : List ApplicationEntry)
    (r : RawResult) : DiscoveryResult :=
  let alreadySeen := log.any (fun e => e.url = r.url)
  let logEntry := if alreadySeen then log.find? (fun e => e.url = r.url) else none
  let seenDaysAgo := logEntry.map
    (fun e => jsFloorDivBy ((JsNum.num now).sub (parseDate e.date)) 86400000)
  { url := r.url
    title := r.title
    company := extractCompany r.title
    site := r.site
    snippet := r.snippet
    age_days := r.age_days
    has_salary := hasSalary (r.title ++ " " ++ r.snippet)
    ghost_preflag := isGhostPreflag r.title r.snippet
    already_seen := alreadySeen
    seen_days_ago := seenDaysAgo }

/-- `discoverJobs`, network factored out: `fetches` holds one adapter
outcome per configured site, in site order; the gathered listings are
deduplicated by URL and annotated. (`age_days := r.age_days` embeds
`r.age_days ?? null`: `undefined` and `null` are the same `none`.) -/
def discoverJobs (parseDate : String → JsNum) (now : Int) (log : List ApplicationEntry)
    (fetches : List (Except JsError (List RawResult))) : List DiscoveryResult :=
  (dedupByUrl (gatherRaw fetches) []).map (annotate parseDate now log)

/-! ## Filter evaluator (`src/config/userConfig.ts`) -/

/-- `src/types.ts` `UserConfig.work_mode` enumeration. -/
inductive WorkMode where
  | remote
  | hybrid
  | onsite
  | any
deriving DecidableEq, Repr

/-- The string each `WorkMode` value interpolates to in reason texts. -/
def WorkMode.asString : WorkMode → String
  | .remote => "remote"
  | .hybrid => "hybrid"
  | .onsite => "onsite"
  | .any => "any"

/-- The keyword table of the Work Mode rule; `keywords[config.work_mode] ??
[]` yields `[]` for the `any` key, which the rule's guard excludes anyway. -/
def workModeKeywords : WorkMode → List String
  | .remote => [ "remote", "zdaln", "home office", "work from home" ]
  | .hybrid => [ "hybrid", "hybrydow" ]
  | .onsite => [ "on-site", "onsite", "in office", "stacjonarnie", "biuro" ]
  | .any => []

/-- `src/types.ts` `UserConfig`: every field optional. -/
structure UserConfig where
  min_match_score : Option Int := none
  max_ghost_score : Option Int := none
  max_age_days : Option Int := none
  require_salary : Option Bool := none
  work_mode : Option WorkMode := none
  role_keywords : Option (List String) := none
  search_sites : Option (List String) := none
deriving DecidableEq, Repr

/-- `src/types.ts` `AnalysisResult`, restricted to the fields the filter
evaluator consumes (spec §4.4: match score, ghost score, salary). -/
structure AnalysisResult where
  match_score : Int
  ghost_score : Int
  salary : Option String := none
deriving DecidableEq, Repr

/-- `src/types.ts` `FilterCheck`. -/
structure FilterCheck where
  name : String
  passed : Bool
  reason : String
deriving DecidableEq, Repr

/-- The Match Score block of `evaluateFilters` (`config.min_match_score !==
undefined`). -/
def matchScoreChecks (config : UserConfig) (result : AnalysisResult) : List FilterCheck :=
  match config.min_match_score with
  | none => []
  | some m =>
    let pass := decide (result.match_score ≥ m)
    [{ name := "Match Score", passed := pass,
       reason := toString result.match_score ++ " " ++ (if pass then "≥" else "<")
         ++ " " ++ toString m }]

/-- The Ghost Risk block of `evaluateFilters`. -/
def ghostRiskChecks (config : UserConfig) (result : AnalysisResult) : List FilterCheck :=
  match config.max_ghost_score with
  | none => []
  | some g =>
    let pass := decide (result.ghost_score ≤ g)
    [{ name := "Ghost Risk", passed := pass,
       reason := toString result.ghost_score ++ " " ++ (if pass then "≤" else ">")
         ++ " " ++ toString g }]

/-- The Freshness block of `evaluateFilters`: a `null` age passes with an
"unverifiable" reason. -/
def freshnessChecks (config : UserConfig) (posting_age_days : Option Int) : List FilterCheck :=
  match config.max_age_days with
  | none => []
  | some maxAge =>
    let pass := match posting_age_days with
      | none => true
      | some v => decide (v ≤ maxAge)
    [{ name := "Freshness", passed := pass,
       reason := match posting_age_days with
         | none => "Posting date unknown — cannot verify"
         | some v => toString v ++ "d " ++ (if pass then "≤" else ">")
             ++ " " ++ toString maxAge ++ "d" }]

/-- The Work Mode block of `evaluateFilters` (`config.work_mode &&
config.work_mode !== 'any'`). -/
def workModeChecks (config : UserConfig) (jdText : String) : List FilterCheck :=
  match config.work_mode with
  | none => []
  | some WorkMode.any => []
  | some mode =>
    let jdLower := jsToLower jdText
    let found := (workModeKeywords mode).find? (fun k => jsIncludes jdLower k)
    let pass := found.isSome
    [{ name := "Work Mode", passed := pass,
       reason := if pass then mode.asString ++ " detected"
         else mode.asString ++ " required, not found in JD" }]

/-- The Salary Visible block of `evaluateFilters` (`config.require_salary`
truthy, i.e. `true`). -/
def salaryChecks (config : UserConfig) (jdText : String) : List FilterCheck :=
  match config.require_salary with
  | some true =>
    let jdLower := jsToLower jdText
    let salaryKw := [ "salary", "wynagrodzenie", "zł", "pln", "eur", "usd", "b2b",
      "uop", "umowa" ]
    let pass := salaryKw.any (fun k => jsIncludes jdLower k)
    [{ name := "Salary Visible", passed := pass,
       reason := if pass then "Salary information detected in JD"
         else "No salary information found" }]
  | _ => []

/-- The Role Keywords block of `evaluateFilters` (`config.role_keywords &&
config.role_keywords.length > 0`). -/
def roleKeywordChecks (config : UserConfig) (jdText : String) : List FilterCheck :=
  match config.role_keywords with
  | some (k :: ks) =>
    let jdLower := jsToLower jdText
    let matched := (k :: ks).filter (fun w => jsIncludes jdLower (jsToLower w))
    let pass := decide (matched.length > 0)
    [{ name := "Role Keywords", passed := pass,
       reason := if pass then "Matched: " ++ String.intercalate ", " matched
         else "None of [" ++ String.intercalate ", " (k :: ks) ++ "] found in JD" }]
  | _ => []

/-- `src/config/userConfig.ts` `evaluateFilters`: the source pushes each
activated rule's check onto an array in program order; modelled as the
concatenation of the six per-rule blocks in that order. -/
def evaluateFilters (config : UserConfig) (result : AnalysisResult) (jdText : String)
    (posting_age_days : Option Int) : List FilterCheck :=
  matchScoreChecks config result
    ++ ghostRiskChecks config result
    ++ freshnessChecks config posting_age_days
    ++ workModeChecks config jdText
    ++ salaryChecks config jdText
    ++ roleKeywordChecks config jdText

/-! ## Retry executor (`src/analyzer/claude.ts`) -/

/-- The fixed backoff schedule. -/
def RETRY_DELAYS_MS : List Nat := [30000, 60000, 120000]

/-- `err instanceof APIError && err.status === 529`. -/
def isOverloadedErr : JsError → Bool
  | .apiError (some 529) => true
  | _ => false

/-- The retry loop of `callWithRetry`, one unfolding per attempt: `calls n`
is the outcome of the `client.messages.create` invocation on attempt `n`
(0-based), `delays` the remaining tail of `RETRY_DELAYS_MS` (so `delays = []`
exactly when `attempt = RETRY_DELAYS_MS.length`, the loop's last iteration,
on which the `isOverloaded && attempt < RETRY_DELAYS_MS.length` guard is
false and any error is rethrown). Returns the final outcome and the total
milliseconds slept in backoff. -/
def callWithRetryGo {α : Type} (calls : Nat → Except JsError α) :
    Nat → List Nat → Except JsError α × Nat
  | attempt, [] =>
    match calls attempt with
    | Except.ok m => (Except.ok m, 0)
    | Except.error e => (Except.error e, 0)
  | attempt, d :: rest =>
    match calls attempt with
    | Except.ok m => (Except.ok m, 0)
    | Except.error e =>
      if isOverloadedErr e then
        let p := callWithRetryGo calls (attempt + 1) rest
        (p.1, d + p.2)
      else (Except.error e, 0)

/-- `src/analyzer/claude.ts` `callWithRetry`: starts at attempt 0 with the
full delay schedule. -/
def callWithRetry {α : Type} (calls : Nat → Except JsError α) : Except JsError α × Nat :=
  callWithRetryGo calls 0 RETRY_DELAYS_MS

/-! ## Scout endpoint (`src/server.ts`, `GET /api/scout`) -/

/-- What the `/api/scout` handler does after loading the config: either a
400 configuration error (returned before `discoverJobs`, hence before any
network activity) or a discovery invocation with the configured lists. -/
inductive ScoutOutcome where
  | configError (message : String)
  | runDiscovery (keywords : List String) (sites : List String)
deriving DecidableEq, Repr

/-- The validation logic of the `GET /api/scout` handler:
`!config.search_sites?.length` (missing or empty) is rejected first, then
`!config.role_keywords?.length`; otherwise `discoverJobs(config.role_keywords,
config.search_sites)` is reached. -/
def scoutHandler (config : UserConfig) : ScoutOutcome :=
  match config.search_sites with
  | none => ScoutOutcome.configError
      "Add \"search_sites\" to jobhunter.config.json first (e.g. [\"nofluffjobs.com\", \"pracuj.pl\"])"
  | some [] => ScoutOutcome.configError
      "Add \"search_sites\" to jobhunter.config.json first (e.g. [\"nofluffjobs.com\", \"pracuj.pl\"])"
  | some (s :: ss) =>
    match config.role_keywords with
    | none => ScoutOutcome.configError
        "Add \"role_keywords\" to jobhunter.config.json first"
    | some [] => ScoutOutcome.configError
        "Add \"role_keywords\" to jobhunter.config.json first"
    | some (k :: ks) => ScoutOutcome.runDiscovery (k :: ks) (s :: ss)

/-! ## Claim theorems -/

/-- C8: the company extractor tries, in order, the "Title @ Company",
"Title at Company" (case-insensitive) and "Title | Company" suffix
conventions, returning the first captured company trimmed of whitespace and
`none` when no convention matches; in particular the four spec examples hold. -/
theorem extractCompany_conventions_c8 :
    extractCompany "QA Engineer @ Acme Corp" = some "Acme Corp"
    ∧ extractCompany "QA Engineer at Acme" = some "Acme"
    ∧ extractCompany "QA Engineer | Acme" = some "Acme"
    ∧ extractCompany "QA Engineer" = none
    ∧ (∀ t : String, matchAtSuffix t.data = none → matchAtWord t.data = none →
        matchPipe t.data = none → extractCompany t = none) := by
  refine ⟨by decide, by decide, by decide, by decide, ?_⟩
  intro t h1 h2 h3
  simp [extractCompany, h1, h2, h3]

/-- Witness for C8 at the concrete title "QA Engineer". -/
theorem extractCompany_conventions_c8_witness :
    matchAtSuffix "QA Engineer".data = none ∧ extractCompany "QA Engineer" = none :=
  ⟨by decide, extractCompany_conventions_c8.2.2.2.2 "QA Engineer" (by decide) (by decide)
    (by decide)⟩

/-- C5 (evaluation of the code at the failing input): a feed item whose
`pubDate` string does not parse (`new Date(…).getTime()` is `NaN`) and whose
title matches a keyword is still emitted — but with `age_days = NaN`, not an
absent/null age: `new Date` never throws, so the `catch { return null }` in
`rssDateToAgeDays` is unreachable and `Math.max(0, Math.floor(NaN / 86400000))`
is `NaN`. -/
theorem fetchNoFluffJobsRSS_nan_age_c5 :
    fetchNoFluffJobsRSS (fun _ => JsNum.nan) 1000000 ["qa"]
      [{ titleText := "QA Engineer", linkText := "https://nofluffjobs.com/job/1",
         guidText := "", descriptionText := "Testing role", pubDateText := "not-a-date",
         dcDateText := "" }]
      = [{ url := "https://nofluffjobs.com/job/1", title := "QA Engineer",
           snippet := "Testing role", site := "nofluffjobs.com",
           age_days := some JsNum.nan }]
    ∧ some JsNum.nan ≠ (none : Option JsNum)
    ∧ rssDateToAgeDays (fun _ => JsNum.nan) 1000000 "not-a-date" = JsNum.nan := by
  refine ⟨by decide, by decide, by decide⟩

/-- `gatherRaw` distributes over concatenation of per-site outcomes. -/
theorem gatherRaw_append (a b : List (Except JsError (List RawResult))) :
    gatherRaw (a ++ b) = gatherRaw a ++ gatherRaw b := by
  induction a with
  | nil => simp [gatherRaw]
  | cons x rest ih => cases x <;> simp [gatherRaw, ih]

/-- C7: a site whose adapter invocation throws contributes zero results and
every remaining site is still processed — discovery with a failing site is
identical to discovery with that site returning zero results, and the caller
always receives a list (the function is total). -/
theorem discoverJobs_source_isolation_c7 (parseDate : String → JsNum) (now : Int)
    (log : List ApplicationEntry) (pre post : List (Except JsError (List RawResult)))
    (e : JsError) :
    gatherRaw (pre ++ Except.error e :: post) = gatherRaw pre ++ gatherRaw post
    ∧ discoverJobs parseDate now log (pre ++ Except.error e :: post)
      = discoverJobs parseDate now log (pre ++ Except.ok [] :: post) := by
  constructor
  · rw [gatherRaw_append]
    simp [gatherRaw]
  · unfold discoverJobs
    rw [gatherRaw_append, gatherRaw_append]
    simp [gatherRaw]

/-- C9: the scout endpoint returns a configuration error (before invoking
discovery, hence before any network activity) exactly when the site list or
the keyword list is missing or empty, and proceeds to discovery with the
configured lists when both are nonempty. -/
theorem scoutHandler_validation_c9 (config : UserConfig) :
    ((config.search_sites = none ∨ config.search_sites = some []
        ∨ config.role_keywords = none ∨ config.role_keywords = some [])
      ↔ ∃ msg, scoutHandler config = ScoutOutcome.configError msg)
    ∧ (∀ k ks s ss, config.role_keywords = some (k :: ks) →
        config.search_sites = some (s :: ss) →
        scoutHandler config = ScoutOutcome.runDiscovery (k :: ks) (s :: ss)) := by
  obtain ⟨f1, f2, f3, f4, f5, rk, ss⟩ := config
  rcases ss with _ | ⟨_ | ⟨s, ss⟩⟩ <;> rcases rk with _ | ⟨_ | ⟨k, ks⟩⟩ <;>
    simp [scoutHandler] <;> (intros; simp_all)

/-- Witness for C9 at a concrete two-list configuration. -/
theorem scoutHandler_validation_c9_witness :
    ({ role_keywords := some ["qa"], search_sites := some ["nofluffjobs.com"] }
        : UserConfig).role_keywords = some ["qa"]
    ∧ scoutHandler { role_keywords := some ["qa"], search_sites := some ["nofluffjobs.com"] }
      = ScoutOutcome.runDiscovery ["qa"] ["nofluffjobs.com"] :=
  ⟨rfl, (scoutHandler_validation_c9 _).2 "qa" [] "nofluffjobs.com" [] rfl rfl⟩

/-- A successful attempt stops the loop with no further waiting. -/
theorem callWithRetryGo_ok {α : Type} {calls : Nat → Except JsError α} {attempt : Nat}
    {m : α} (delays : List Nat) (h : calls attempt = Except.ok m) :
    callWithRetryGo calls attempt delays = (Except.ok m, 0) := by
  cases delays <;> simp [callWithRetryGo, h]

/-- An error with the schedule exhausted is rethrown with no further waiting. -/
theorem callWithRetryGo_exhausted {α : Type} {calls : Nat → Except JsError α} {attempt : Nat}
    {e : JsError} (h : calls attempt = Except.error e) :
    callWithRetryGo calls attempt [] = (Except.error e, 0) := by
  simp [callWithRetryGo, h]

/-- An overload error with schedule remaining waits the next delay and retries. -/
theorem callWithRetryGo_retry {α : Type} {calls : Nat → Except JsError α} {attempt : Nat}
    {e : JsError} {d : Nat} {rest : List Nat} (h : calls attempt = Except.error e)
    (hov : isOverloadedErr e = true) :
    callWithRetryGo calls attempt (d :: rest)
      = ((callWithRetryGo calls (attempt + 1) rest).1,
          d + (callWithRetryGo calls (attempt + 1) rest).2) := by
  simp [callWithRetryGo, h, hov]

/-- A non-overload error is rethrown at once, whatever schedule remains. -/
theorem callWithRetryGo_other {α : Type} {calls : Nat → Except JsError α} {attempt : Nat}
    {e : JsError} {d : Nat} {rest : List Nat} (h : calls attempt = Except.error e)
    (hov : isOverloadedErr e = false) :
    callWithRetryGo calls attempt (d :: rest) = (Except.error e, 0) := by
  simp [callWithRetryGo, h, hov]

/-- The retry loop consults the wrapped call only at attempts
`attempt … attempt + delays.length`. -/
theorem callWithRetryGo_congr {α : Type} (calls calls2 : Nat → Except JsError α) :
    ∀ (delays : List Nat) (attempt : Nat),
      (∀ i, attempt ≤ i → i ≤ attempt + delays.length → calls i = calls2 i) →
      callWithRetryGo calls attempt delays = callWithRetryGo calls2 attempt delays := by
  intro delays
  induction delays with
  | nil =>
    intro attempt h
    have h0 := h attempt le_rfl (by simp)
    simp [callWithRetryGo, h0]
  | cons d rest ih =>
    intro attempt h
    have h0 := h attempt le_rfl (by omega)
    have hrec := ih (attempt + 1)
      (fun i hi1 hi2 => h i (by omega) (by simp only [List.length_cons]; omega))
    cases h2 : calls2 attempt with
    | ok m => rw [callWithRetryGo_ok _ (h0.trans h2), callWithRetryGo_ok _ h2]
    | error e =>
      cases he : isOverloadedErr e
      · rw [callWithRetryGo_other (h0.trans h2) he, callWithRetryGo_other h2 he]
      · rw [callWithRetryGo_retry (h0.trans h2) he, callWithRetryGo_retry h2 he, hrec]

/-- C4: `callWithRetry` retries only on the overload condition (`APIError`
with status 529) with backoff 30s, 60s, 120s and at most four total attempts:
one overload then success waits 30s; two overloads then success returns the
success after 30s + 60s; a non-overload failure on the first attempt
propagates with no delay; four overload failures exhaust the schedule and
propagate the final failure after 210s; and the outcome depends only on the
first four attempts. -/
theorem callWithRetry_backoff_c4 {α : Type} (calls calls2 : Nat → Except JsError α) :
    (∀ (m : α) e1, isOverloadedErr e1 = true → calls 0 = Except.error e1 →
        calls 1 = Except.ok m → callWithRetry calls = (Except.ok m, 30000))
    ∧ (∀ (m : α) e1 e2, isOverloadedErr e1 = true → isOverloadedErr e2 = true →
        calls 0 = Except.error e1 → calls 1 = Except.error e2 → calls 2 = Except.ok m →
        callWithRetry calls = (Except.ok m, 90000))
    ∧ (∀ e, isOverloadedErr e = false → calls 0 = Except.error e →
        callWithRetry calls = (Except.error e, 0))
    ∧ (∀ e0 e1 e2 e3, isOverloadedErr e0 = true → isOverloadedErr e1 = true →
        isOverloadedErr e2 = true →
        calls 0 = Except.error e0 → calls 1 = Except.error e1 → calls 2 = Except.error e2 →
        calls 3 = Except.error e3 →
        callWithRetry calls = (Except.error e3, 210000))
    ∧ ((∀ i, i ≤ 3 → calls i = calls2 i) → callWithRetry calls = callWithRetry calls2) := by
  refine ⟨?_, ?_, ?_, ?_, ?_⟩
  · intro m e1 hov1 h0 h1
    unfold callWithRetry RETRY_DELAYS_MS
    rw [callWithRetryGo_retry h0 hov1, callWithRetryGo_ok _ h1]
    norm_num
  · intro m e1 e2 hov1 hov2 h0 h1 h2
    unfold callWithRetry RETRY_DELAYS_MS
    rw [callWithRetryGo_retry h0 hov1, callWithRetryGo_retry h1 hov2,
      callWithRetryGo_ok _ h2]
    norm_num
  · intro e hov h0
    unfold callWithRetry RETRY_DELAYS_MS
    rw [callWithRetryGo_other h0 hov]
  · intro e0 e1 e2 e3 hov0 hov1 hov2 h0 h1 h2 h3
    unfold callWithRetry RETRY_DELAYS_MS
    rw [callWithRetryGo_retry h0 hov0, callWithRetryGo_retry h1 hov1,
      callWithRetryGo_retry h2 hov2, callWithRetryGo_exhausted h3]
    norm_num
  · intro h
    exact callWithRetryGo_congr calls calls2 RETRY_DELAYS_MS 0
      (fun i hi1 hi2 => h i (by simpa [RETRY_DELAYS_MS] using hi2))

/-- Witness for C4: two overload failures then a success yields the success
with a total wait of 90 000 ms. -/
theorem callWithRetry_backoff_c4_witness :
    isOverloadedErr (JsError.apiError (some 529)) = true
    ∧ callWithRetry (fun i =>
        if i = 0 then Except.error (JsError.apiError (some 529))
        else if i = 1 then Except.error (JsError.apiError (some 529))
        else Except.ok (42 : Nat)) = (Except.ok 42, 90000) :=
  ⟨by decide,
    (callWithRetry_backoff_c4
        (fun i => if i = 0 then Except.error (JsError.apiError (some 529))
          else if i = 1 then Except.error (JsError.apiError (some 529))
          else Except.ok (42 : Nat))
        (fun i => if i = 0 then Except.error (JsError.apiError (some 529))
          else if i = 1 then Except.error (JsError.apiError (some 529))
          else Except.ok (42 : Nat))).2.1
      42 (JsError.apiError (some 529)) (JsError.apiError (some 529))
      (by decide) (by decide) rfl rfl rfl⟩

/-- C6: the meta-search adapter walks the instance list in order — every
earlier instance that threw or returned zero results is skipped, the first
instance with at least one result supplies the output (truncated to 10,
normalized, entries with an empty URL dropped), the output never exceeds 10
entries, and exhausting the list (all instances failing or empty) yields `[]`
rather than an error. -/
theorem searchViaSearXNG_fallback_c6 (site : String)
    (outcomes pre post : List (Except JsError (List SearxItem))) (results : List SearxItem) :
    ((∀ o ∈ pre, (∃ e, o = Except.error e) ∨ o = Except.ok []) → results ≠ [] →
      searchViaSearXNG site (pre ++ Except.ok results :: post)
        = ((results.take 10).map (searxToRaw site)).filter (fun r => r.url ≠ ""))
    ∧ (searchViaSearXNG site outcomes).length ≤ 10
    ∧ ((∀ o ∈ outcomes, (∃ e, o = Except.error e) ∨ o = Except.ok []) →
      searchViaSearXNG site outcomes = []) := by
  refine ⟨?_, ?_, ?_⟩
  · intro hpre hres
    revert hpre
    induction pre with
    | nil =>
      intro _
      have hlen : results.length > 0 := List.length_pos.mpr hres
      simp [searchViaSearXNG, hlen]
    | cons o rest ih =>
      intro hpre
      rcases hpre o (by simp) with ⟨e, rfl⟩ | rfl
      · simpa [searchViaSearXNG] using ih (fun o ho => hpre o (by simp [ho]))
      · simpa [searchViaSearXNG] using ih (fun o ho => hpre o (by simp [ho]))
  · induction outcomes with
    | nil => simp [searchViaSearXNG]
    | cons o rest ih =>
      cases o with
      | error e => simpa [searchViaSearXNG] using ih
      | ok rs =>
        by_cases hlen : rs.length > 0
        · simp only [searchViaSearXNG, hlen, if_true]
          refine le_trans (List.length_filter_le _ _) ?_
          simp [List.length_take]
        · simpa [searchViaSearXNG, hlen] using ih
  · induction outcomes with
    | nil => intro _; simp [searchViaSearXNG]
    | cons o rest ih =>
      intro hall
      rcases hall o (by simp) with ⟨e, rfl⟩ | rfl
      · simpa [searchViaSearXNG] using ih (fun o ho => hall o (by simp [ho]))
      · simpa [searchViaSearXNG] using ih (fun o ho => hall o (by simp [ho]))

/-- The concrete third-instance result used by the C6 witness. -/
def sampleSearxItem : SearxItem :=
  { url := some "https://pracuj.pl/x", title := some "T", content := some "C" }

/-- Witness for C6: one throwing instance and one empty instance are skipped,
the third instance's single result is returned. -/
theorem searchViaSearXNG_fallback_c6_witness :
    searchViaSearXNG "pracuj.pl"
      ([Except.error (JsError.other "timeout"), Except.ok []]
        ++ Except.ok [sampleSearxItem] :: [])
      = (([sampleSearxItem].take 10).map (searxToRaw "pracuj.pl")).filter
          (fun r => r.url ≠ "") := by
  refine (searchViaSearXNG_fallback_c6 "pracuj.pl" [] _ [] [sampleSearxItem]).1 ?_ ?_
  · intro o ho
    simp only [List.mem_cons, List.not_mem_nil, or_false] at ho
    rcases ho with rfl | rfl
    · exact Or.inl ⟨_, rfl⟩
    · exact Or.inr rfl
  · simp

/-- The names emitted by the Match Score block. -/
theorem matchScoreChecks_names (c : UserConfig) (r : AnalysisResult) :
    (matchScoreChecks c r).map (fun ch => ch.name)
      = if c.min_match_score ≠ none then ["Match Score"] else [] := by
  cases h : c.min_match_score <;> simp [matchScoreChecks, h]

/-- The names emitted by the Ghost Risk block. -/
theorem ghostRiskChecks_names (c : UserConfig) (r : AnalysisResult) :
    (ghostRiskChecks c r).map (fun ch => ch.name)
      = if c.max_ghost_score ≠ none then ["Ghost Risk"] else [] := by
  cases h : c.max_ghost_score <;> simp [ghostRiskChecks, h]

/-- The names emitted by the Freshness block. -/
theorem freshnessChecks_names (c : UserConfig) (age : Option Int) :
    (freshnessChecks c age).map (fun ch => ch.name)
      = if c.max_age_days ≠ none then ["Freshness"] else [] := by
  cases h : c.max_age_days <;> simp [freshnessChecks, h]

/-- The names emitted by the Work Mode block. -/
theorem workModeChecks_names (c : UserConfig) (jd : String) :
    (workModeChecks c jd).map (fun ch => ch.name)
      = if c.work_mode ≠ none ∧ c.work_mode ≠ some WorkMode.any
        then ["Work Mode"] else [] := by
  cases h : c.work_mode with
  | none => simp [workModeChecks, h]
  | some m => cases m <;> simp [workModeChecks, h]

/-- The names emitted by the Salary Visible block. -/
theorem salaryChecks_names (c : UserConfig) (jd : String) :
    (salaryChecks c jd).map (fun ch => ch.name)
      = if c.require_salary = some true then ["Salary Visible"] else [] := by
  cases h : c.require_salary with
  | none => simp [salaryChecks, h]
  | some b => cases b <;> simp [salaryChecks, h]

/-- The names emitted by the Role Keywords block. -/
theorem roleKeywordChecks_names (c : UserConfig) (jd : String) :
    (roleKeywordChecks c jd).map (fun ch => ch.name)
      = if c.role_keywords.getD [] ≠ [] then ["Role Keywords"] else [] := by
  rcases h : c.role_keywords with _ | ⟨_ | ⟨k, ks⟩⟩ <;> simp [roleKeywordChecks, h]

/-- An `ite`-guarded singleton is a sublist of the bare singleton. -/
theorem ite_singleton_sublist {α : Type} (P : Prop) [Decidable P] (b : α) :
    (if P then [b] else []).Sublist [b] := by
  split
  · exact List.Sublist.refl _
  · exact List.nil_sublist _

/-- Membership in an `ite`-guarded singleton. -/
theorem mem_ite_singleton {α : Type} (P : Prop) [Decidable P] (a b : α) :
    (a ∈ (if P then [b] else [])) ↔ (P ∧ a = b) := by
  split <;> simp_all

/-- The name list of `evaluateFilters`, one guarded singleton per rule, in
the fixed program order. -/
theorem evaluateFilters_names (c : UserConfig) (r : AnalysisResult) (jd : String)
    (age : Option Int) :
    (evaluateFilters c r jd age).map (fun ch => ch.name)
      = (if c.min_match_score ≠ none then ["Match Score"] else [])
        ++ (if c.max_ghost_score ≠ none then ["Ghost Risk"] else [])
        ++ (if c.max_age_days ≠ none then ["Freshness"] else [])
        ++ (if c.work_mode ≠ none ∧ c.work_mode ≠ some WorkMode.any
            then ["Work Mode"] else [])
        ++ (if c.require_salary = some true then ["Salary Visible"] else [])
        ++ (if c.role_keywords.getD [] ≠ [] then ["Role Keywords"] else []) := by
  simp only [evaluateFilters, List.map_append, matchScoreChecks_names, ghostRiskChecks_names,
    freshnessChecks_names, workModeChecks_names, salaryChecks_names, roleKeywordChecks_names]

/-- C3: `evaluateFilters` emits exactly one check per activated rule
(`min_match_score` set, `max_ghost_score` set, `max_age_days` set,
`work_mode` set and not `any`, `require_salary` true, `role_keywords`
nonempty), so the length is the number of activated rules and at most 6; the
check names follow the fixed order whatever the configuration; each rule's
check is present iff that rule is activated (no placeholder for an unset
rule); and the all-unset configuration yields `[]`, not an error. -/
theorem evaluateFilters_rules_c3 (c : UserConfig) (r : AnalysisResult) (jd : String)
    (age : Option Int) :
    (evaluateFilters c r jd age).length
      = (if c.min_match_score ≠ none then 1 else 0)
        + (if c.max_ghost_score ≠ none then 1 else 0)
        + (if c.max_age_days ≠ none then 1 else 0)
        + (if c.work_mode ≠ none ∧ c.work_mode ≠ some WorkMode.any then 1 else 0)
        + (if c.require_salary = some true then 1 else 0)
        + (if c.role_keywords.getD [] ≠ [] then 1 else 0)
    ∧ (evaluateFilters c r jd age).length ≤ 6
    ∧ ((evaluateFilters c r jd age).map (fun ch => ch.name)).Sublist
        ["Match Score", "Ghost Risk", "Freshness", "Work Mode", "Salary Visible",
          "Role Keywords"]
    ∧ (("Match Score" ∈ (evaluateFilters c r jd age).map (fun ch => ch.name))
        ↔ c.min_match_score ≠ none)
    ∧ (("Ghost Risk" ∈ (evaluateFilters c r jd age).map (fun ch => ch.name))
        ↔ c.max_ghost_score ≠ none)
    ∧ (("Freshness" ∈ (evaluateFilters c r jd age).map (fun ch => ch.name))
        ↔ c.max_age_days ≠ none)
    ∧ (("Work Mode" ∈ (evaluateFilters c r jd age).map (fun ch => ch.name))
        ↔ (c.work_mode ≠ none ∧ c.work_mode ≠ some WorkMode.any))
    ∧ (("Salary Visible" ∈ (evaluateFilters c r jd age).map (fun ch => ch.name))
        ↔ c.require_salary = some true)
    ∧ (("Role Keywords" ∈ (evaluateFilters c r jd age).map (fun ch => ch.name))
        ↔ c.role_keywords.getD [] ≠ [])
    ∧ evaluateFilters {} r jd age = [] := by
  have hn := evaluateFilters_names c r jd age
  have hlen : (evaluateFilters c r jd age).length
      = (if c.min_match_score ≠ none then 1 else 0)
        + (if c.max_ghost_score ≠ none then 1 else 0)
        + (if c.max_age_days ≠ none then 1 else 0)
        + (if c.work_mode ≠ none ∧ c.work_mode ≠ some WorkMode.any then 1 else 0)
        + (if c.require_salary = some true then 1 else 0)
        + (if c.role_keywords.getD [] ≠ [] then 1 else 0) := by
    rw [← List.length_map (evaluateFilters c r jd age) (fun ch => ch.name), hn]
    simp only [List.length_append, apply_ite List.length, List.length_singleton,
      List.length_nil]
  refine ⟨hlen, ?_, ?_, ?_, ?_, ?_, ?_, ?_, ?_, rfl⟩
  · rw [hlen]
    split_ifs <;> norm_num
  · rw [hn]
    show List.Sublist _ (((((["Match Score"] ++ ["Ghost Risk"]) ++ ["Freshness"])
      ++ ["Work Mode"]) ++ ["Salary Visible"]) ++ ["Role Keywords"])
    refine List.Sublist.append (List.Sublist.append (List.Sublist.append
      (List.Sublist.append (List.Sublist.append ?_ ?_) ?_) ?_) ?_) ?_ <;>
      exact ite_singleton_sublist _ _
  · rw [hn]
    simp [List.mem_append, mem_ite_singleton]
  · rw [hn]
    simp [List.mem_append, mem_ite_singleton]
  · rw [hn]
    simp [List.mem_append, mem_ite_singleton]
  · rw [hn]
    simp [List.mem_append, mem_ite_singleton]
  · rw [hn]
    simp [List.mem_append, mem_ite_singleton]
  · rw [hn]
    simp [List.mem_append, mem_ite_singleton]

/-- Deduplication output preserves input order (it is a filter). -/
theorem dedupByUrl_sublist : ∀ (l : List RawResult) (seen : List String),
    (dedupByUrl l seen).Sublist l := by
  intro l
  induction l with
  | nil => intro seen; simp [dedupByUrl]
  | cons r rest ih =>
    intro seen
    by_cases hc : (decide (r.url = "") || seen.contains r.url) = true
    · rw [dedupByUrl, if_pos hc]
      exact List.Sublist.cons r (ih seen)
    · rw [dedupByUrl, if_neg hc]
      exact List.Sublist.cons₂ r (ih (r.url :: seen))

/-- Every survivor of deduplication has a nonempty, not-previously-seen URL
and is the first input listing bearing its URL. -/
theorem dedupByUrl_mem : ∀ (l : List RawResult) (seen : List String) (d : RawResult),
    d ∈ dedupByUrl l seen →
      d.url ∉ seen ∧ d.url ≠ "" ∧ l.find? (fun x => x.url = d.url) = some d := by
  intro l
  induction l with
  | nil => intro seen d hd; simp [dedupByUrl] at hd
  | cons r rest ih =>
    intro seen d hd
    by_cases hc : (decide (r.url = "") || seen.contains r.url) = true
    · rw [dedupByUrl, if_pos hc] at hd
      obtain ⟨h1, h2, h3⟩ := ih seen d hd
      simp only [Bool.or_eq_true, decide_eq_true_eq, List.elem_eq_mem] at hc
      have hne : r.url ≠ d.url := by
        rcases hc with hempty | hmem
        · intro he; exact h2 (he ▸ hempty)
        · intro he; exact h1 (he ▸ hmem)
      refine ⟨h1, h2, ?_⟩
      rw [List.find?_cons_of_neg _ (by simpa using hne)]
      exact h3
    · rw [dedupByUrl, if_neg hc] at hd
      simp only [Bool.or_eq_true, decide_eq_true_eq, List.elem_eq_mem, not_or] at hc
      obtain ⟨hrne, hrseen⟩ := hc
      rcases List.mem_cons.1 hd with rfl | hd'
      · refine ⟨hrseen, hrne, ?_⟩
        rw [List.find?_cons_of_pos _ (by simp)]
      · obtain ⟨h1, h2, h3⟩ := ih (r.url :: seen) d hd'
        have hdne : d.url ≠ r.url := fun he => h1 (by simp [he])
        refine ⟨fun hm => h1 (List.mem_cons_of_mem _ hm), h2, ?_⟩
        rw [List.find?_cons_of_neg _ (by simpa using fun he => hdne he.symm)]
        exact h3

/-- A URL already in the seen set never appears in the deduplicated output. -/
theorem dedupByUrl_count_of_mem_seen : ∀ (l : List RawResult) (seen : List String)
    (u : String), u ∈ seen → ((dedupByUrl l seen).map (fun r => r.url)).count u = 0 := by
  intro l
  induction l with
  | nil => intro seen u _; simp [dedupByUrl]
  | cons r rest ih =>
    intro seen u hu
    by_cases hc : (decide (r.url = "") || seen.contains r.url) = true
    · rw [dedupByUrl, if_pos hc]
      exact ih seen u hu
    · rw [dedupByUrl, if_neg hc]
      simp only [Bool.or_eq_true, decide_eq_true_eq, List.elem_eq_mem, not_or] at hc
      have hne : u ≠ r.url := fun he => hc.2 (he ▸ hu)
      rw [List.map_cons, List.count_cons_of_ne hne]
      exact ih (r.url :: seen) u (List.mem_cons_of_mem _ hu)

/-- A nonempty URL not in the seen set appears exactly once in the
deduplicated output when it occurs in the input, and never otherwise. -/
theorem dedupByUrl_count_of_not_seen : ∀ (l : List RawResult) (seen : List String)
    (u : String), u ∉ seen → u ≠ "" →
    ((dedupByUrl l seen).map (fun r => r.url)).count u
      = if u ∈ l.map (fun r => r.url) then 1 else 0 := by
  intro l
  induction l with
  | nil => intro seen u _ _; simp [dedupByUrl]
  | cons r rest ih =>
    intro seen u hu hne
    by_cases hc : (decide (r.url = "") || seen.contains r.url) = true
    · rw [dedupByUrl, if_pos hc]
      rw [ih seen u hu hne]
      simp only [Bool.or_eq_true, decide_eq_true_eq, List.elem_eq_mem] at hc
      have hur : u ≠ r.url := by
        rcases hc with hempty | hmem
        · intro he; exact hne (he ▸ hempty)
        · intro he; exact hu (he ▸ hmem)
      simp [List.mem_cons, hur]
    · rw [dedupByUrl, if_neg hc]
      by_cases heq : u = r.url
      · rw [List.map_cons, heq, List.count_cons_self,
          dedupByUrl_count_of_mem_seen rest (r.url :: seen) r.url (by simp)]
        simp
      · rw [List.map_cons, List.count_cons_of_ne heq,
          ih (r.url :: seen) u (by simp [hu, heq]) hne]
        simp [List.mem_cons, heq]

/-- The URLs of the discovery output are the URLs of the deduplicated raw
listings (annotation preserves `url`). -/
theorem discoverJobs_map_url (parseDate : String → JsNum) (now : Int)
    (log : List ApplicationEntry) (fetches : List (Except JsError (List RawResult))) :
    (discoverJobs parseDate now log fetches).map (fun d => d.url)
      = (dedupByUrl (gatherRaw fetches) []).map (fun r => r.url) := by
  rw [discoverJobs, List.map_map]
  exact List.map_congr_left (fun r _ => rfl)

/-- C1: over the raw listings gathered in one run (whose URLs are nonempty —
each adapter drops entries without a URL), `discoverJobs` returns exactly one
`DiscoveryResult` per distinct URL, in first-seen source-then-insertion order
(the output URL list is a sublist of the gathered URL list), each output
derived from the first gathered listing bearing its URL; the persisted
history `log` is universally quantified and never removes a listing, so
already-seen URLs are retained. -/
theorem discoverJobs_unique_urls_c1 (parseDate : String → JsNum) (now : Int)
    (log : List ApplicationEntry) (fetches : List (Except JsError (List RawResult)))
    (hne : ∀ r ∈ gatherRaw fetches, r.url ≠ "") :
    (∀ u ∈ (gatherRaw fetches).map (fun r => r.url),
        ((discoverJobs parseDate now log fetches).map (fun d => d.url)).count u = 1)
    ∧ ((discoverJobs parseDate now log fetches).map (fun d => d.url)).Sublist
        ((gatherRaw fetches).map (fun r => r.url))
    ∧ (∀ d ∈ discoverJobs parseDate now log fetches,
        ∃ r, (gatherRaw fetches).find? (fun x => x.url = d.url) = some r
          ∧ d = annotate parseDate now log r) := by
  refine ⟨?_, ?_, ?_⟩
  · intro u hu
    rw [discoverJobs_map_url]
    obtain ⟨r, hr, rfl⟩ := List.mem_map.1 hu
    rw [dedupByUrl_count_of_not_seen _ [] _ (by simp) (hne r hr),
      if_pos (List.mem_map.2 ⟨r, hr, rfl⟩)]
  · rw [discoverJobs_map_url]
    exact (dedupByUrl_sublist _ _).map _
  · intro d hd
    rw [discoverJobs] at hd
    obtain ⟨r, hr, rfl⟩ := List.mem_map.1 hd
    obtain ⟨h1, h2, h3⟩ := dedupByUrl_mem _ _ r hr
    exact ⟨r, h3, rfl⟩

/-- The duplicate-bearing gathered collection used by the C1 witness. -/
def c1WitnessFetches : List (Except JsError (List RawResult)) :=
  [Except.ok [⟨"https://a", "T1", "S1", "s", none⟩, ⟨"https://b", "T2", "S2", "s", none⟩,
    ⟨"https://a", "T3", "S3", "s", none⟩]]

/-- Witness for C1 on a run with a duplicated URL. -/
theorem discoverJobs_unique_urls_c1_witness :
    (∀ r ∈ gatherRaw c1WitnessFetches, r.url ≠ "")
    ∧ ((∀ u ∈ (gatherRaw c1WitnessFetches).map (fun r => r.url),
        ((discoverJobs (fun _ => JsNum.nan) 0 [] c1WitnessFetches).map
          (fun d => d.url)).count u = 1)
      ∧ ((discoverJobs (fun _ => JsNum.nan) 0 [] c1WitnessFetches).map
          (fun d => d.url)).Sublist ((gatherRaw c1WitnessFetches).map (fun r => r.url))
      ∧ (∀ d ∈ discoverJobs (fun _ => JsNum.nan) 0 [] c1WitnessFetches,
          ∃ r, (gatherRaw c1WitnessFetches).find? (fun x => x.url = d.url) = some r
            ∧ d = annotate (fun _ => JsNum.nan) 0 [] r)) :=
  ⟨by decide, discoverJobs_unique_urls_c1 (fun _ => JsNum.nan) 0 [] c1WitnessFetches
    (by decide)⟩

/-- C10: every discovery output carries the `url`, `title`, `snippet`, `site`
and `age_days` of the first gathered listing with its URL unchanged
(`age_days ?? null` only collapses an absent value to null), and the
aggregation adds exactly the annotation fields computed by the classifiers
and the history cross-reference. -/
theorem discoverJobs_frame_c10 (parseDate : String → JsNum) (now : Int)
    (log : List ApplicationEntry) (fetches : List (Except JsError (List RawResult))) :
    ∀ d ∈ discoverJobs parseDate now log fetches,
      ∃ r, (gatherRaw fetches).find? (fun x => x.url = d.url) = some r
        ∧ d.url = r.url ∧ d.title = r.title ∧ d.snippet = r.snippet ∧ d.site = r.site
        ∧ d.age_days = r.age_days
        ∧ d.company = extractCompany r.title
        ∧ d.has_salary = hasSalary (r.title ++ " " ++ r.snippet)
        ∧ d.ghost_preflag = isGhostPreflag r.title r.snippet := by
  intro d hd
  rw [discoverJobs] at hd
  obtain ⟨r, hr, rfl⟩ := List.mem_map.1 hd
  obtain ⟨h1, h2, h3⟩ := dedupByUrl_mem _ _ r hr
  exact ⟨r, h3, rfl, rfl, rfl, rfl, rfl, rfl, rfl, rfl⟩

/-- Witness for C10 on the C1 collection. -/
theorem discoverJobs_frame_c10_witness :
    (annotate (fun _ => JsNum.nan) 0 [] ⟨"https://a", "T1", "S1", "s", none⟩
        ∈ discoverJobs (fun _ => JsNum.nan) 0 [] c1WitnessFetches)
    ∧ ∃ r, (gatherRaw c1WitnessFetches).find?
          (fun x => x.url = (annotate (fun _ => JsNum.nan) 0 []
            ⟨"https://a", "T1", "S1", "s", none⟩).url) = some r
        ∧ (annotate (fun _ => JsNum.nan) 0 [] ⟨"https://a", "T1", "S1", "s", none⟩).url
            = r.url
        ∧ (annotate (fun _ => JsNum.nan) 0 [] ⟨"https://a", "T1", "S1", "s", none⟩).title
            = r.title
        ∧ (annotate (fun _ => JsNum.nan) 0 [] ⟨"https://a", "T1", "S1", "s", none⟩).snippet
            = r.snippet
        ∧ (annotate (fun _ => JsNum.nan) 0 [] ⟨"https://a", "T1", "S1", "s", none⟩).site
            = r.site
        ∧ (annotate (fun _ => JsNum.nan) 0 [] ⟨"https://a", "T1", "S1", "s", none⟩).age_days
            = r.age_days
        ∧ (annotate (fun _ => JsNum.nan) 0 [] ⟨"https://a", "T1", "S1", "s", none⟩).company
            = extractCompany r.title
        ∧ (annotate (fun _ => JsNum.nan) 0 [] ⟨"https://a", "T1", "S1", "s", none⟩).has_salary
            = hasSalary (r.title ++ " " ++ r.snippet)
        ∧ (annotate (fun _ => JsNum.nan) 0 [] ⟨"https://a", "T1", "S1", "s", none⟩).ghost_preflag
            = isGhostPreflag r.title r.snippet :=
  ⟨by decide, discoverJobs_frame_c10 (fun _ => JsNum.nan) 0 [] c1WitnessFetches
    (annotate (fun _ => JsNum.nan) 0 [] ⟨"https://a", "T1", "S1", "s", none⟩) (by decide)⟩

/-- The `already_seen` field comes from the logged-URL set. -/
theorem annotate_already_seen (parseDate : String → JsNum) (now : Int)
    (log : List ApplicationEntry) (r : RawResult) :
    (annotate parseDate now log r).already_seen = log.any (fun e => e.url = r.url) := rfl

/-- The `seen_days_ago` field: floored whole-day difference against the first
matching log entry's parsed date, `none` when the URL was never logged. -/
theorem annotate_seen_days_ago (parseDate : String → JsNum) (now : Int)
    (log : List ApplicationEntry) (r : RawResult) :
    (annotate parseDate now log r).seen_days_ago
      = (if log.any (fun e => e.url = r.url) = true
         then log.find? (fun e => e.url = r.url) else none).map
          (fun e => jsFloorDivBy ((JsNum.num now).sub (parseDate e.date)) 86400000) := rfl

/-- C2 counterexample: with a history entry whose logged date parses to one
day after `Date.now()`, the already-seen listing's `seen_days_ago` is `-1`:
the "never negative" part of the claim fails on the code, which (unlike
`rssDateToAgeDays`) does not clamp this value at zero. -/
theorem discoverJobs_seen_days_negative_c2_cex :
    ((discoverJobs (fun _ => JsNum.num 86400000) 0 [⟨"https://a", "2970-01-02"⟩]
        [Except.ok [⟨"https://a", "T", "S", "s", none⟩]]).map
      (fun d => (d.already_seen, d.seen_days_ago)))
      = [(true, some (JsNum.num (-1)))]
    ∧ (-1 : Int) < 0 :=
  ⟨by decide, by decide⟩

/-- C2 (amended): for every listing in the discovery output whose URL has a
history entry, `already_seen` is true and `seen_days_ago` is the whole-day
floored difference between now and the first matching entry's parsed date —
non-negative whenever that date is not in the future of now; for a URL with
no history entry, `already_seen` is false and `seen_days_ago` is null. -/
theorem discoverJobs_already_seen_c2 (parseDate : String → JsNum) (now : Int)
    (log : List ApplicationEntry) (fetches : List (Except JsError (List RawResult))) :
    ∀ d ∈ discoverJobs parseDate now log fetches,
      (∀ e, log.find? (fun x => x.url = d.url) = some e →
        d.already_seen = true
        ∧ d.seen_days_ago
            = some (jsFloorDivBy ((JsNum.num now).sub (parseDate e.date)) 86400000)
        ∧ (∀ t : Int, parseDate e.date = JsNum.num t → t ≤ now →
            d.seen_days_ago = some (JsNum.num (Int.fdiv (now - t) 86400000))
            ∧ 0 ≤ Int.fdiv (now - t) 86400000))
      ∧ (log.find? (fun x => x.url = d.url) = none →
          d.already_seen = false ∧ d.seen_days_ago = none) := by
  intro d hd
  rw [discoverJobs] at hd
  obtain ⟨r, hr, rfl⟩ := List.mem_map.1 hd
  constructor
  · intro e he
    have he' : log.find? (fun x => x.url = r.url) = some e := he
    have hpe := List.find?_some he'
    have hany : log.any (fun x => x.url = r.url) = true :=
      List.any_eq_true.2 ⟨e, List.mem_of_find?_eq_some he', hpe⟩
    have h2 : (annotate parseDate now log r).seen_days_ago
        = some (jsFloorDivBy ((JsNum.num now).sub (parseDate e.date)) 86400000) := by
      rw [annotate_seen_days_ago, if_pos hany, he']
      rfl
    refine ⟨by rw [annotate_already_seen]; exact hany, h2, ?_⟩
    intro t ht hle
    refine ⟨by rw [h2, ht]; rfl, Int.fdiv_nonneg (by omega) (by norm_num)⟩
  · intro hnone
    have hnone' : log.find? (fun x => x.url = r.url) = none := hnone
    have hany : log.any (fun x => x.url = r.url) = false := by
      rcases h : log.any (fun x => x.url = r.url) with _ | _
      · rfl
      · obtain ⟨e, hmem, hpe⟩ := List.any_eq_true.1 h
        have := List.find?_eq_none.1 hnone' e hmem
        simp [hpe] at this
    constructor
    · rw [annotate_already_seen]; exact hany
    · rw [annotate_seen_days_ago, if_neg (by simp [hany])]
      rfl

/-- The single-entry history used by the C2 witness. -/
def c2WitnessLog : List ApplicationEntry := [⟨"https://a", "1970-01-01"⟩]

/-- The single-site fetch outcome used by the C2 witness. -/
def c2WitnessFetches : List (Except JsError (List RawResult)) :=
  [Except.ok [⟨"https://a", "T", "S", "s", none⟩]]

/-- Witness for C2 (amended) with a history entry one day in the past. -/
theorem discoverJobs_already_seen_c2_witness :
    ((annotate (fun _ => JsNum.num 0) 86400000 c2WitnessLog
        ⟨"https://a", "T", "S", "s", none⟩).already_seen = true)
    ∧ ((annotate (fun _ => JsNum.num 0) 86400000 c2WitnessLog
        ⟨"https://a", "T", "S", "s", none⟩).seen_days_ago
          = some (JsNum.num (Int.fdiv (86400000 - 0) 86400000)))
    ∧ 0 ≤ Int.fdiv ((86400000 : Int) - 0) 86400000 := by
  have h := discoverJobs_already_seen_c2 (fun _ => JsNum.num 0) 86400000 c2WitnessLog
    c2WitnessFetches
    (annotate (fun _ => JsNum.num 0) 86400000 c2WitnessLog ⟨"https://a", "T", "S", "s", none⟩)
    (by decide)
  have h1 := h.1 ⟨"https://a", "1970-01-01"⟩ (by decide)
  have h2 := h1.2.2 0 (by decide) (by decide)
  exact ⟨h1.1, h2.1, h2.2⟩
